import Mathlib

/-!
Verification of the wails dev-mode orchestrator
(`v2/cmd/wails/internal/dev/dev.go`).

The Go code is shallowly embedded as pure Lean functions.  External
collaborators (the builder, the OS process layer, the filesystem, the
HTTP endpoints of the running application) are represented by an
environment record `Env` carrying the outcome each collaborator would
produce, and every side effect the code performs (killing a process,
deleting a binary, resetting the debounce timer, issuing an HTTP GET,
adding a directory to the filesystem watcher) is recorded, in program
order, in a list of `Effect` values returned next to the new state.
-/

namespace WailsDev

/-! ### String and path helpers, modelling the Go standard library
functions used by `dev.go` (`strings.HasPrefix`, `strings.Contains`,
`path/filepath.Ext`, `path/filepath.Dir` and its `Clean`). -/

/-- Model of Go `strings.HasPrefix(s, p)`: `p` is a prefix of `s`,
compared as raw character sequences with no path-separator logic. -/
def strStartsWith (s p : String) : Bool :=
  p.toList.isPrefixOf s.toList

/-- Model of Go `strings.Contains(s, sub)`. -/
def goContains (s sub : String) : Bool :=
  s.toList.tails.any (fun t => sub.toList.isPrefixOf t)

/-- Scanner for `filepath.Ext`: walk the reversed character list of the
path, stop at a path separator, and return the suffix starting at the
last dot (dot included), as `filepath.Ext` does on unix. -/
def extScan : List Char → List Char → Option (List Char)
  | _, [] => none
  | acc, c :: rest =>
    if c = '/' then none
    else if c = '.' then some ('.' :: acc)
    else extScan (c :: acc) rest

/-- Model of Go `filepath.Ext`: the suffix beginning at the final dot in
the final element of the path, empty if there is none. -/
def filepathExt (p : String) : String :=
  match extScan [] p.toList.reverse with
  | some ext => String.mk ext
  | none => ""

/-- Split a character list on the path separator. -/
def splitSlash : List Char → List (List Char)
  | [] => [[]]
  | c :: rest =>
    match splitSlash rest with
    | [] => [[c]]
    | g :: gs => if c = '/' then [] :: g :: gs else (c :: g) :: gs

/-- Join components with the path separator. -/
def joinSlash : List (List Char) → List Char
  | [] => []
  | [g] => g
  | g :: gs => g ++ '/' :: joinSlash gs

/-- Component-wise core of Go `filepath.Clean`: drop empty and `.`
components, let `..` pop a previous component (except leading `..` in a
relative path, which stays, and `..` at the root of a rooted path, which
disappears). -/
def cleanAux (rooted : Bool) : List (List Char) → List (List Char) → List (List Char)
  | acc, [] => acc.reverse
  | acc, comp :: rest =>
    if comp = [] ∨ comp = ['.'] then cleanAux rooted acc rest
    else if comp = ['.', '.'] then
      match acc with
      | [] =>
        if rooted then cleanAux rooted [] rest
        else cleanAux rooted [['.', '.']] rest
      | top :: acc2 =>
        if top = ['.', '.'] then cleanAux rooted (comp :: top :: acc2) rest
        else cleanAux rooted acc2 rest
    else cleanAux rooted (comp :: acc) rest

/-- Model of Go `filepath.Clean` for unix paths. -/
def filepathClean (p : String) : String :=
  if p = "" then "."
  else
    let cs := p.toList
    let rooted : Bool := cs.take 1 = ['/']
    let joined := joinSlash (cleanAux rooted [] (splitSlash cs))
    if rooted then String.mk ('/' :: joined)
    else if joined = [] then "." else String.mk joined

/-- Model of Go `filepath.Dir`: everything up to and including the final
path separator, then cleaned; `.` if the path holds no separator. -/
def filepathDir (p : String) : String :=
  let kept := ((p.toList.reverse).dropWhile (fun c => c ≠ '/')).reverse
  filepathClean (String.mk kept)

/-- Drop the first character of a string (the `ext[1:]` slice in
`isEligibleFile`). -/
def strDrop1 (s : String) : String :=
  String.mk (s.toList.drop 1)

/-- Insert a string into a list used with set semantics, as an insert
into a Go `map[string]struct{}` keeps a single copy of the key. -/
def insertStr (l : List String) (s : String) : List String :=
  if s ∈ l then l else l ++ [s]

/-! ### Data model -/

/-- A spawned OS process handle (`internal/process.Process`): its PID,
the path of the binary backing it, and whether it is running. -/
structure Process where
  pid : Nat
  binaryPath : String
  running : Bool
deriving DecidableEq

/-- One observable side effect of the dev orchestrator, recorded in
program order. -/
inductive Effect
  | timerReset
  | logLine (msg : String)
  | watcherAdd (dir : String)
  | rebuildAttempt
  | killProcess (pid : Nat)
  | startProcess (pid : Nat)
  | deleteBinary (path : String)
  | httpGetAssetDir
  | httpGetReload
deriving DecidableEq

/-- Recognize the effect of invoking the external builder
(`build.Build` inside `restartApp`). -/
def isRebuildAttempt : Effect → Bool
  | .rebuildAttempt => true
  | _ => false

/-- Recognize a process-kill effect. -/
def isKillEffect : Effect → Bool
  | .killProcess _ => true
  | _ => false

/-- Outcome of the `os.Remove` call in `killProcessAndCleanupBinary`:
success, a file-does-not-exist error (tolerated), or another error. -/
inductive RemoveResult
  | removed
  | errNotExist
  | removeErr (msg : String)
deriving DecidableEq

/-! ### killProcessAndCleanupBinary (dev.go lines 176-190) -/

/-- Second half of `killProcessAndCleanupBinary`: if a binary path was
given, call `os.Remove` on it; an `ErrNotExist` failure is ignored, any
other failure is returned. -/
def kcRemovePhase (binary : String) (removeRes : RemoveResult)
    (effs : List Effect) : Option String × List Effect :=
  if binary = "" then (none, effs)
  else
    match removeRes with
    | .removed => (none, effs ++ [.deleteBinary binary])
    | .errNotExist => (none, effs ++ [.deleteBinary binary])
    | .removeErr e => (some e, effs ++ [.deleteBinary binary])

/-- Model of `killProcessAndCleanupBinary`: when the process exists and
is running, `Kill` it first and propagate a kill error immediately;
only afterwards attempt to remove the binary.  The returned list shows
the kill and delete attempts in program order; the `Option String` is
the returned error. -/
def killProcessAndCleanupBinary (proc : Option Process) (binary : String)
    (killRes : Except String Unit) (removeRes : RemoveResult) :
    Option String × List Effect :=
  match proc with
  | some p =>
    if p.running then
      match killRes with
      | .error e => (some e, [.killProcess p.pid])
      | .ok _ => kcRemovePhase binary removeRes [.killProcess p.pid]
    else kcRemovePhase binary removeRes []
  | none => kcRemovePhase binary removeRes []

/-! ### Static configuration and environment of the dev loop -/

/-- The per-session static configuration of `doWatcherLoop`:
`extensionsThatTriggerARebuild` (as the list it was built from),
`dirsThatTriggerAReload`, the `-nogorebuild` flag, and the
`skipAssetsReload` condition computed before the loop. -/
structure Config where
  extensions : List String
  reloadDirs : List String
  noGoRebuild : Bool
  skipAssetsReload : Bool

/-- Outcomes produced by the external collaborators during one loop
iteration: the filesystem (`fs.DirExists`, `fs.FileExists`), the
watcher's `Add`, the external builder (`build.Build`), the process
layer (`Kill`, `shlex.Split`, `Start`), and the two HTTP endpoints of
the running application. -/
structure Env where
  dirExists : String → Bool
  watcherAddOk : String → Bool
  buildResult : Except String String
  killOk : Bool
  shlexOk : Bool
  startOk : Bool
  newPid : Nat
  binaryExists : Bool
  deleteOk : Bool
  assetDirResp : Option String
  reloadOk : Bool

/-- The mutable state owned by `doWatcherLoop`: the `quit` flag, the
pending `rebuild` and `reload` flags, the cached `assetDir`, the
`changedPaths` batch, the live watch set, and the handle of the
currently running debug binary process. -/
structure LoopState where
  quit : Bool
  rebuild : Bool
  reload : Bool
  assetDir : String
  changedPaths : List String
  watchList : List String
  debugBinaryProcess : Option Process
deriving DecidableEq

/-- Result of `restartApp`: either the Go function returns (a possibly
nil process, a binary path, a possibly nil error), or it terminates the
whole tool through `Logger.Fatal`. -/
inductive RestartOutcome
  | ok (proc : Option Process) (binary : String) (err : Option String)
  | fatal (msg : String)
deriving DecidableEq

/-- Tail of `restartApp` after the build succeeded and any previous
process was killed: parse `AppArgs` with `shlex.Split` (a failure is
fatal), start the new binary (on a start failure, best-effort delete
the freshly built binary, then fatal). -/
def restartStart (env : Env) (appBinary : String) (effs : List Effect) :
    RestartOutcome × List Effect :=
  if env.shlexOk = false then (.fatal "Unable to parse appargs", effs)
  else if env.startOk then
    (.ok (some { pid := env.newPid, binaryPath := appBinary, running := true })
       appBinary none,
     effs ++ [.startProcess env.newPid])
  else if env.binaryExists then
    if env.deleteOk then
      (.fatal "Unable to start application",
       effs ++ [.startProcess env.newPid, .deleteBinary appBinary])
    else
      (.fatal ("Unable to delete app binary: " ++ appBinary),
       effs ++ [.startProcess env.newPid, .deleteBinary appBinary])
  else
    (.fatal "Unable to start application", effs ++ [.startProcess env.newPid])

/-- Model of `restartApp` (dev.go lines 275-342).  On a build failure it
logs and returns `(nil, "", nil)` without touching the previous
process; otherwise it kills the previous process if there is one (a
kill failure is fatal), then hands over to `restartStart`. -/
def restartApp (env : Env) (prev : Option Process) :
    RestartOutcome × List Effect :=
  match env.buildResult with
  | .error e =>
    (.ok none "" none,
     [.rebuildAttempt, .logLine ("Build error - " ++ e),
      .logLine (match prev with
        | none => "No version running, build will be retriggered as soon as changes have been detected"
        | some _ => "Continuing to run current version")])
  | .ok appBinary =>
    match prev with
    | some p =>
      if env.killOk then
        restartStart env appBinary [.rebuildAttempt, .killProcess p.pid]
      else
        (.fatal "Unable to kill debug binary", [.rebuildAttempt, .killProcess p.pid])
    | none => restartStart env appBinary [.rebuildAttempt]

/-! ### The dev loop (doWatcherLoop, dev.go lines 344-530) -/

/-- The event sources multiplexed by the loop's `select`. -/
structure FsEvent where
  name : String
  isWrite : Bool
  isCreate : Bool
deriving DecidableEq

/-- One event serviced by an iteration of `doWatcherLoop`. -/
inductive LoopEvent
  | exit (code : Int)
  | watchErr (msg : String)
  | fs (item : FsEvent)
  | timer
  | quitSig
deriving DecidableEq

/-- Outcome of one loop iteration: the next state, or termination of
the whole tool through `Logger.Fatal`. -/
inductive StepResult
  | next (st : LoopState)
  | fatalStop (msg : String)
deriving DecidableEq

/-- The `isEligibleFile` closure of `doWatcherLoop`: the file's
extension (dot stripped) is a member of the configured
rebuild-extension set. -/
def isEligibleFile (exts : List String) (fileName : String) : Bool :=
  let ext := filepathExt fileName
  if ext ≠ "" then exts.contains (strDrop1 ext) else false

/-- The create-handling block of the watcher-event case (dev.go lines
447-467): a created directory is added to the watch set unless its path
contains `node_modules` (a failure of `watcher.Add` is fatal); a
created file with an eligible extension marks a rebuild and resets the
debounce timer. -/
def handleCreatePhase (cfg : Config) (env : Env) (st : LoopState)
    (item : FsEvent) (effs : List Effect) : StepResult × List Effect :=
  if item.isCreate then
    if env.dirExists item.name then
      if goContains item.name "node_modules" = false then
        if env.watcherAddOk item.name then
          (.next { st with watchList := insertStr st.watchList item.name },
           effs ++ [.watcherAdd item.name,
                    .logLine ("Added new directory to watcher: " ++ item.name)])
        else (.fatalStop "watcher add error", effs ++ [.watcherAdd item.name])
      else (.next st, effs)
    else if isEligibleFile cfg.extensions item.name then
      (.next { st with rebuild := true }, effs ++ [.timerReset])
    else (.next st, effs)
  else (.next st, effs)

/-- The watcher-event case of the loop (dev.go lines 405-467).  A write
to a directory is ignored (`continue`); a write to an eligible file
marks a rebuild, resets the timer and skips the create block
(`continue`); any other write sets `reload` when the path has a
configured reload directory as a raw string prefix, records the parent
directory into `changedPaths` only when `reload` is (still) false,
resets the timer, and falls through to the create block. -/
def handleFsEvent (cfg : Config) (env : Env) (st : LoopState)
    (item : FsEvent) : StepResult × List Effect :=
  if item.isWrite then
    if env.dirExists item.name then (.next st, [])
    else if isEligibleFile cfg.extensions item.name then
      (.next { st with rebuild := true }, [.timerReset])
    else
      let rl := st.reload || cfg.reloadDirs.any (fun d => strStartsWith item.name d)
      let cps := if rl then st.changedPaths
                 else insertStr st.changedPaths (filepathDir item.name)
      handleCreatePhase cfg env { st with reload := rl, changedPaths := cps }
        item [.timerReset]
  else handleCreatePhase cfg env st item []

/-- Asset-directory correlation inside the debounce tick (dev.go lines
489-515): when asset reloading is not skipped and the batch is
non-empty, lazily resolve the asset directory once via HTTP, then set
`reload` when any batched directory has the asset directory as a raw
string prefix; when the directory stays unresolved and no reload
directories are configured, only a diagnostic is logged. -/
def resolveAssetDir (env : Env) (assetDir : String) : String × List Effect :=
  if assetDir = "" then
    match env.assetDirResp with
    | some content => (content, [.httpGetAssetDir])
    | none => ("", [.httpGetAssetDir, .logLine "Error during retrieving assetdir"])
  else (assetDir, [])

/-- See the section comment: the body of the
`!skipAssetsReload && len(changedPaths) != 0` block. -/
def assetsResolvePhase (cfg : Config) (env : Env) (st : LoopState) :
    LoopState × List Effect :=
  if cfg.skipAssetsReload = false ∧ st.changedPaths ≠ [] then
    if (resolveAssetDir env st.assetDir).1 = "" then
      if cfg.reloadDirs.isEmpty then
        (st, (resolveAssetDir env st.assetDir).2 ++
          [.logLine "Reloading could not be triggered: Please specify -assetdir or -reloaddirs"])
      else (st, (resolveAssetDir env st.assetDir).2)
    else
      ({ st with assetDir := (resolveAssetDir env st.assetDir).1,
                 reload := st.reload ||
                   st.changedPaths.any
                     (fun p => strStartsWith p (resolveAssetDir env st.assetDir).1) },
       (resolveAssetDir env st.assetDir).2)
  else (st, [])

/-- The reload step of the debounce tick (dev.go lines 516-522): when
`reload` is pending, clear it and issue one HTTP GET to the reload
endpoint (an HTTP failure is only logged). -/
def reloadPhase (env : Env) (st : LoopState) : LoopState × List Effect :=
  if st.reload then
    ({ st with reload := false },
     .httpGetReload :: (if env.reloadOk then [] else [.logLine "Error during refresh"]))
  else (st, [])

/-- The tail of the debounce tick after the rebuild block: asset
correlation, then the reload call, then `changedPaths` is cleared. -/
def timerAssetsPhase (cfg : Config) (env : Env) (st : LoopState)
    (effs : List Effect) : StepResult × List Effect :=
  let r1 := assetsResolvePhase cfg env st
  let r2 := reloadPhase env r1.1
  (.next { r2.1 with changedPaths := [] }, effs ++ r1.2 ++ r2.2)

/-- The debounce-timer case of the loop (dev.go lines 468-523).  When a
rebuild is pending the flag is cleared and, unless `-nogorebuild` is
set, `restartApp` is invoked; a non-nil error from it skips the rest of
the tick (`continue`), a non-nil new process replaces
`debugBinaryProcess`.  Then the asset and reload phases run. -/
def handleTimer (cfg : Config) (env : Env) (st : LoopState) :
    StepResult × List Effect :=
  if st.rebuild then
    if cfg.noGoRebuild then
      timerAssetsPhase cfg env { st with rebuild := false }
        [.logLine "Rebuild triggered - skipping due to flag -nogorebuild"]
    else
      match restartApp env st.debugBinaryProcess with
      | (.fatal m, reffs) =>
        (.fatalStop m, .logLine "Rebuild triggered - files updated" :: reffs)
      | (.ok newProc _b err, reffs) =>
        match err with
        | some e =>
          (.next { st with rebuild := false },
           .logLine "Rebuild triggered - files updated" :: reffs ++
             [.logLine ("Error during build: " ++ e)])
        | none =>
          match newProc with
          | some p =>
            timerAssetsPhase cfg env
              { st with rebuild := false, debugBinaryProcess := some p }
              (.logLine "Rebuild triggered - files updated" :: reffs)
          | none =>
            timerAssetsPhase cfg env { st with rebuild := false }
              (.logLine "Rebuild triggered - files updated" :: reffs)
  else timerAssetsPhase cfg env st []

/-- One `select` iteration of `doWatcherLoop`: an exit code of zero
sets `quit`; a watcher error is logged; a watcher event goes to
`handleFsEvent`; the debounce timer goes to `handleTimer`; an OS quit
signal sets `quit`. -/
def stepLoop (cfg : Config) (env : Env) (st : LoopState) :
    LoopEvent → StepResult × List Effect
  | .exit code => (.next (if code = 0 then { st with quit := true } else st), [])
  | .watchErr msg => (.next st, [.logLine msg])
  | .fs item => handleFsEvent cfg env st item
  | .timer => handleTimer cfg env st
  | .quitSig => (.next { st with quit := true }, [.logLine "Caught quit"])

/-- Run the loop over a queue of events, stopping (as `for !quit` does)
once `quit` is set, and stopping the whole run on a fatal step. -/
def runLoop (cfg : Config) (env : Env) : LoopState → List LoopEvent →
    StepResult × List Effect
  | st, [] => (.next st, [])
  | st, e :: rest =>
    if st.quit then (.next st, [])
    else
      match stepLoop cfg env st e with
      | (.fatalStop m, effs) => (.fatalStop m, effs)
      | (.next st2, effs) =>
        let r := runLoop cfg env st2 rest
        (r.1, effs ++ r.2)

/-- A write event to the named file, as delivered by fsnotify. -/
def eligibleWriteEvent (name : String) : LoopEvent :=
  .fs { name := name, isWrite := true, isCreate := false }

/-! ### The frontend dev-watcher closer
(runFrontendDevWatcherCommand, dev.go lines 208-272)

The `state` variable is an atomic int32 holding `stateRunning = 0`,
`stateCanceling = 1` or `stateStopped = 2`.  The closer returned at
line 265 runs `CompareAndSwapInt32(state, stateRunning, stateCanceling)`
and sends the process-group termination signal (`killProc`) exactly
when the swap succeeds.  The background `Wait` goroutine runs
`CompareAndSwapInt32(state, stateRunning, stateStopped)` and then
`StoreInt32(state, stateStopped)`.  Concurrency is modelled by
linearization: an execution is an arbitrary interleaving of these
atomic operations. -/

/-- The tri-state of the frontend watcher supervisor. -/
inductive WatchState
  | running
  | canceling
  | stopped
deriving DecidableEq

/-- The atomic operations the goroutines perform on `state`. -/
inductive AtomicOp
  | closerCas
  | waiterCasStop
  | waiterStore
deriving DecidableEq

/-- Semantics of one atomic operation: the new state and, for a
compare-and-swap, whether it succeeded. -/
def casStep : WatchState → AtomicOp → WatchState × Bool
  | s, .closerCas => if s = .running then (.canceling, true) else (s, false)
  | s, .waiterCasStop => if s = .running then (.stopped, true) else (s, false)
  | _, .waiterStore => (.stopped, true)

/-- Number of process-group termination signals sent along a linearized
execution: the closer sends one exactly when its compare-and-swap from
`running` to `canceling` succeeds. -/
def killSignals : WatchState → List AtomicOp → Nat
  | _, [] => 0
  | s, op :: rest =>
    let r := casStep s op
    (if op = .closerCas ∧ r.2 = true then 1 else 0) + killSignals r.1 rest

/-! ### Shared concrete instances used by witnesses -/

/-- A demo configuration: rebuild on `go` files, one reload directory. -/
def demoCfg : Config :=
  { extensions := ["go"], reloadDirs := ["/project/frontend"],
    noGoRebuild := false, skipAssetsReload := false }

/-- A demo environment in which the builder fails. -/
def demoEnv : Env :=
  { dirExists := fun _ => false, watcherAddOk := fun _ => true,
    buildResult := .error "compile failed", killOk := true, shlexOk := true,
    startOk := true, newPid := 7, binaryExists := false, deleteOk := true,
    assetDirResp := none, reloadOk := true }

/-- A demo loop state: nothing pending, one running process. -/
def demoSt : LoopState :=
  { quit := false, rebuild := false, reload := false, assetDir := "",
    changedPaths := [], watchList := [],
    debugBinaryProcess := some { pid := 41, binaryPath := "/tmp/app-dev", running := true } }

/-! ### Helper lemmas about the timer tick -/

/-- The effects of `restartStart` extend the given prefix and add no
builder invocation. -/
theorem restartStart_effects (env : Env) (b : String) (effs : List Effect) :
    ∃ t, (restartStart env b effs).2 = effs ++ t ∧
      List.countP isRebuildAttempt t = 0 := by
  by_cases h1 : env.shlexOk = false
  · exact ⟨[], by simp [restartStart, h1], rfl⟩
  · by_cases h2 : env.startOk = true
    · exact ⟨[.startProcess env.newPid], by simp [restartStart, h1, h2],
        by simp [isRebuildAttempt]⟩
    · by_cases h3 : env.binaryExists = true
      · by_cases h4 : env.deleteOk = true
        · exact ⟨[.startProcess env.newPid, .deleteBinary b],
            by simp [restartStart, h1, h2, h3, h4], by simp [isRebuildAttempt]⟩
        · exact ⟨[.startProcess env.newPid, .deleteBinary b],
            by simp [restartStart, h1, h2, h3, h4], by simp [isRebuildAttempt]⟩
      · exact ⟨[.startProcess env.newPid],
          by simp [restartStart, h1, h2, h3], by simp [isRebuildAttempt]⟩

/-- Every call of `restartApp` invokes the external builder first and
exactly once: its effect list is one `rebuildAttempt` followed by
effects that hold no further builder invocation. -/
theorem restartApp_effects (env : Env) (prev : Option Process) :
    ∃ t, (restartApp env prev).2 = .rebuildAttempt :: t ∧
      List.countP isRebuildAttempt t = 0 := by
  cases hb : env.buildResult with
  | error e =>
    cases prev with
    | none =>
      exact ⟨[.logLine ("Build error - " ++ e),
              .logLine "No version running, build will be retriggered as soon as changes have been detected"],
        by simp [restartApp, hb], by simp [isRebuildAttempt]⟩
    | some p =>
      exact ⟨[.logLine ("Build error - " ++ e),
              .logLine "Continuing to run current version"],
        by simp [restartApp, hb], by simp [isRebuildAttempt]⟩
  | ok appBinary =>
    cases prev with
    | none =>
      obtain ⟨t, ht, hc⟩ := restartStart_effects env appBinary [.rebuildAttempt]
      exact ⟨t, by simpa [restartApp, hb] using ht, hc⟩
    | some p =>
      by_cases hk : env.killOk = true
      · obtain ⟨t, ht, hc⟩ :=
          restartStart_effects env appBinary [.rebuildAttempt, .killProcess p.pid]
        refine ⟨.killProcess p.pid :: t, ?_, ?_⟩
        · simpa [restartApp, hb, hk] using ht
        · simp [isRebuildAttempt, hc]
      · exact ⟨[.killProcess p.pid], by simp [restartApp, hb, hk],
          by simp [isRebuildAttempt]⟩

/-- Each `restartApp` call makes exactly one rebuild attempt. -/
theorem restartApp_count (env : Env) (prev : Option Process) :
    List.countP isRebuildAttempt (restartApp env prev).2 = 1 := by
  obtain ⟨t, ht, hc⟩ := restartApp_effects env prev
  rw [ht]
  simp [isRebuildAttempt, hc]

/-- The asset-directory HTTP resolution emits no builder invocation. -/
theorem resolveAssetDir_count (env : Env) (a : String) :
    List.countP isRebuildAttempt (resolveAssetDir env a).2 = 0 := by
  unfold resolveAssetDir
  by_cases h : a = ""
  · cases env.assetDirResp <;> simp [h, isRebuildAttempt]
  · simp [h]

/-- The asset-correlation phase leaves every loop-state field except
`assetDir` and `reload` unchanged, and never clears a pending
reload. -/
theorem assetsResolve_preserve (cfg : Config) (env : Env) (st : LoopState) :
    (assetsResolvePhase cfg env st).1.quit = st.quit ∧
    (assetsResolvePhase cfg env st).1.rebuild = st.rebuild ∧
    (assetsResolvePhase cfg env st).1.debugBinaryProcess = st.debugBinaryProcess ∧
    (assetsResolvePhase cfg env st).1.watchList = st.watchList ∧
    (st.reload = true → (assetsResolvePhase cfg env st).1.reload = true) := by
  unfold assetsResolvePhase
  by_cases h1 : cfg.skipAssetsReload = false ∧ st.changedPaths ≠ []
  · rw [if_pos h1]
    by_cases h2 : (resolveAssetDir env st.assetDir).1 = ""
    · rw [if_pos h2]
      by_cases h3 : cfg.reloadDirs.isEmpty = true
      · rw [if_pos h3]
        exact ⟨rfl, rfl, rfl, rfl, fun h => h⟩
      · rw [if_neg h3]
        exact ⟨rfl, rfl, rfl, rfl, fun h => h⟩
    · rw [if_neg h2]
      exact ⟨rfl, rfl, rfl, rfl, fun h => by simp [h]⟩
  · rw [if_neg h1]
    exact ⟨rfl, rfl, rfl, rfl, fun h => h⟩

/-- The asset-correlation phase emits no builder invocation. -/
theorem assetsResolve_count (cfg : Config) (env : Env) (st : LoopState) :
    List.countP isRebuildAttempt (assetsResolvePhase cfg env st).2 = 0 := by
  unfold assetsResolvePhase
  by_cases h1 : cfg.skipAssetsReload = false ∧ st.changedPaths ≠ []
  · rw [if_pos h1]
    have hr := resolveAssetDir_count env st.assetDir
    by_cases h2 : (resolveAssetDir env st.assetDir).1 = ""
    · rw [if_pos h2]
      by_cases h3 : cfg.reloadDirs.isEmpty = true
      · rw [if_pos h3]; simp [isRebuildAttempt, hr]
      · rw [if_neg h3]; simpa using hr
    · rw [if_neg h2]; simpa using hr
  · rw [if_neg h1]; rfl

/-- The reload phase touches only the `reload` flag and emits no
builder invocation. -/
theorem reloadPhase_preserve (env : Env) (st : LoopState) :
    (reloadPhase env st).1.quit = st.quit ∧
    (reloadPhase env st).1.rebuild = st.rebuild ∧
    (reloadPhase env st).1.debugBinaryProcess = st.debugBinaryProcess ∧
    (reloadPhase env st).1.watchList = st.watchList ∧
    List.countP isRebuildAttempt (reloadPhase env st).2 = 0 := by
  unfold reloadPhase
  by_cases h : st.reload = true
  · rw [if_pos h]
    refine ⟨rfl, rfl, rfl, rfl, ?_⟩
    cases henv : env.reloadOk <;> simp [isRebuildAttempt]
  · rw [if_neg h]
    exact ⟨rfl, rfl, rfl, rfl, rfl⟩

/-- When a reload is pending on entry to the tick tail, the reload HTTP
call fires: the effect list extends the given prefix with the asset
effects and then the reload GET. -/
theorem reloadPhase_fires (env : Env) (st : LoopState) (h : st.reload = true) :
    ∃ t, (reloadPhase env st).2 = .httpGetReload :: t := by
  unfold reloadPhase
  rw [if_pos h]
  exact ⟨_, rfl⟩

/-- Shape of the tick tail: it returns `next`, extends the given effect
prefix, preserves `rebuild`, `quit` and the process handle, and adds no
builder invocation. -/
theorem timerAssets_spec (cfg : Config) (env : Env) (st : LoopState)
    (effs : List Effect) :
    ∃ st2 t, timerAssetsPhase cfg env st effs = (.next st2, effs ++ t) ∧
      st2.rebuild = st.rebuild ∧ st2.quit = st.quit ∧
      st2.debugBinaryProcess = st.debugBinaryProcess ∧
      List.countP isRebuildAttempt t = 0 := by
  obtain ⟨ha1, ha2, ha3, ha4, _⟩ := assetsResolve_preserve cfg env st
  obtain ⟨hr1, hr2, hr3, hr4, hr5⟩ :=
    reloadPhase_preserve env (assetsResolvePhase cfg env st).1
  refine ⟨{ (reloadPhase env (assetsResolvePhase cfg env st).1).1 with
              changedPaths := [] },
    (assetsResolvePhase cfg env st).2 ++
      (reloadPhase env (assetsResolvePhase cfg env st).1).2,
    ?_, ?_, ?_, ?_, ?_⟩
  · simp [timerAssetsPhase, List.append_assoc]
  · simpa [hr2] using ha2
  · simpa [hr1] using ha1
  · simpa [hr3] using ha3
  · simp [assetsResolve_count cfg env st, hr5]

/-- When a reload is pending on entry, the tick tail issues the reload
HTTP call. -/
theorem timerAssets_reload (cfg : Config) (env : Env) (st : LoopState)
    (effs : List Effect) (h : st.reload = true) :
    ∃ st2 l1 l2, timerAssetsPhase cfg env st effs =
      (.next st2, effs ++ l1 ++ .httpGetReload :: l2) := by
  obtain ⟨-, -, -, -, ha5⟩ := assetsResolve_preserve cfg env st
  obtain ⟨t, ht⟩ := reloadPhase_fires env (assetsResolvePhase cfg env st).1 (ha5 h)
  exact ⟨{ (reloadPhase env (assetsResolvePhase cfg env st).1).1 with
             changedPaths := [] },
    (assetsResolvePhase cfg env st).2, t, by simp [timerAssetsPhase, ht]⟩

/-- A pending rebuild processed by the debounce tick with the
`-nogorebuild` flag clear produces exactly one builder invocation, and
the pending flag is clear in the successor state. -/
theorem handleTimer_count (cfg : Config) (env : Env) (st : LoopState)
    (hrb : st.rebuild = true) (hng : cfg.noGoRebuild = false) :
    List.countP isRebuildAttempt (handleTimer cfg env st).2 = 1 ∧
    (∀ st2, (handleTimer cfg env st).1 = .next st2 → st2.rebuild = false) := by
  have hra := restartApp_count env st.debugBinaryProcess
  unfold handleTimer
  rw [if_pos hrb, if_neg (by simp [hng])]
  rcases hr : restartApp env st.debugBinaryProcess with ⟨out, reffs⟩
  rw [hr] at hra
  cases out with
  | fatal m =>
    refine ⟨by simpa [isRebuildAttempt] using hra, ?_⟩
    intro st2 h
    exact absurd h (by simp)
  | ok newProc b err =>
    cases err with
    | some e =>
      refine ⟨by simpa [isRebuildAttempt] using hra, ?_⟩
      intro st2 h
      simp only [StepResult.next.injEq] at h
      rw [← h]
    | none =>
      cases newProc with
      | some p =>
        obtain ⟨st2, t, heq, hrb2, -, -, hc⟩ :=
          timerAssets_spec cfg env
            { st with rebuild := false, debugBinaryProcess := some p }
            (.logLine "Rebuild triggered - files updated" :: reffs)
        simp only []
        rw [heq]
        refine ⟨by simp [isRebuildAttempt, hra, hc], ?_⟩
        intro st3 h
        simp only [StepResult.next.injEq] at h
        rw [← h, hrb2]
      | none =>
        obtain ⟨st2, t, heq, hrb2, -, -, hc⟩ :=
          timerAssets_spec cfg env { st with rebuild := false }
            (.logLine "Rebuild triggered - files updated" :: reffs)
        simp only []
        rw [heq]
        refine ⟨by simp [isRebuildAttempt, hra, hc], ?_⟩
        intro st3 h
        simp only [StepResult.next.injEq] at h
        rw [← h, hrb2]

/-- A loop whose quit flag is set processes no further event. -/
theorem runLoop_quit (cfg : Config) (env : Env) (st : LoopState)
    (h : st.quit = true) :
    ∀ l, runLoop cfg env st l = (.next st, [])
  | [] => by simp [runLoop]
  | e :: l => by simp [runLoop, h]

/-- Splitting a run of the loop at an arbitrary point. -/
theorem runLoop_append (cfg : Config) (env : Env) :
    ∀ (l1 l2 : List LoopEvent) (st : LoopState),
    runLoop cfg env st (l1 ++ l2) =
      (match runLoop cfg env st l1 with
       | (.next st1, e1) =>
         ((runLoop cfg env st1 l2).1, e1 ++ (runLoop cfg env st1 l2).2)
       | (.fatalStop m, e1) => (.fatalStop m, e1))
  | [], l2, st => by simp [runLoop]
  | e :: l1, l2, st => by
    by_cases hq : st.quit = true
    · rw [List.cons_append]
      simp [runLoop, hq, runLoop_quit cfg env st hq]
    · rcases hs : stepLoop cfg env st e with ⟨sr, effs⟩
      cases sr with
      | fatalStop m =>
        rw [List.cons_append]
        simp [runLoop, hq, hs]
      | next st2 =>
        rcases hr : runLoop cfg env st2 l1 with ⟨sr1, e1⟩
        have ih := runLoop_append cfg env l1 l2 st2
        rw [hr] at ih
        cases sr1 with
        | fatalStop m =>
          rw [List.cons_append]
          simp [runLoop, hq, hs, ih, hr]
        | next st3 =>
          rw [List.cons_append]
          simp [runLoop, hq, hs, ih, hr, List.append_assoc]

/-- Processing a burst of eligible write events: each one sets the
pending rebuild flag and resets the debounce timer, and nothing else
changes. -/
theorem runLoop_writes (cfg : Config) (env : Env) :
    ∀ (names : List String) (st : LoopState), st.quit = false →
    (∀ n ∈ names,
      env.dirExists n = false ∧ isEligibleFile cfg.extensions n = true) →
    runLoop cfg env st (names.map eligibleWriteEvent) =
      (.next (if names.isEmpty then st else { st with rebuild := true }),
       List.replicate names.length .timerReset)
  | [], st, _, _ => by simp [runLoop]
  | n :: rest, st, hq, hall => by
    have hn := hall n (by simp)
    have hstep : stepLoop cfg env st (eligibleWriteEvent n) =
        (.next { st with rebuild := true }, [.timerReset]) := by
      simp [stepLoop, eligibleWriteEvent, handleFsEvent, hn.1, hn.2]
    have ih := runLoop_writes cfg env rest { st with rebuild := true } hq
      (fun m hm => hall m (by simp [hm]))
    rw [List.map_cons]
    simp only [runLoop]
    rw [if_neg (show ¬st.quit = true by simp [hq]), hstep]
    simp only []
    rw [ih]
    cases rest with
    | nil => simp
    | cons m ms => simp [List.replicate_succ]

/-- A debounce-timer reset carries no builder invocation. -/
theorem countP_timerReset_replicate :
    ∀ n, List.countP isRebuildAttempt
      (List.replicate n Effect.timerReset) = 0
  | 0 => rfl
  | n + 1 => by
    simp [List.replicate_succ, isRebuildAttempt,
      countP_timerReset_replicate n]

/-! ### Claim theorems -/

/-- C1: when the external builder fails, `restartApp` returns a nil
process, an empty binary path and a nil error; it kills nothing; and
the debounce tick that invoked it leaves the dev loop holding the same
process handle (hence the same PID and binary path) as before. -/
theorem restartApp_build_failure_keeps_process (cfg : Config) (env : Env)
    (st : LoopState) (e : String) (hb : env.buildResult = .error e)
    (hrb : st.rebuild = true) (hng : cfg.noGoRebuild = false) :
    (∀ prev, (restartApp env prev).1 = .ok none "" none) ∧
    (∀ prev, List.countP isKillEffect (restartApp env prev).2 = 0) ∧
    (∃ st2 effs, handleTimer cfg env st = (.next st2, effs) ∧
      st2.debugBinaryProcess = st.debugBinaryProcess) := by
  refine ⟨?_, ?_, ?_⟩
  · intro prev
    cases prev <;> simp [restartApp, hb]
  · intro prev
    cases prev <;> simp [restartApp, hb, isKillEffect]
  · obtain ⟨reffs, hra⟩ :
        ∃ reffs, restartApp env st.debugBinaryProcess = (.ok none "" none, reffs) := by
      cases hd : st.debugBinaryProcess with
      | none =>
        exact ⟨[.rebuildAttempt, .logLine ("Build error - " ++ e),
                .logLine "No version running, build will be retriggered as soon as changes have been detected"],
          by simp [restartApp, hb]⟩
      | some p =>
        exact ⟨[.rebuildAttempt, .logLine ("Build error - " ++ e),
                .logLine "Continuing to run current version"],
          by simp [restartApp, hb]⟩
    obtain ⟨st2, t, heq, -, -, hdbg, -⟩ :=
      timerAssets_spec cfg env { st with rebuild := false }
        (.logLine "Rebuild triggered - files updated" :: reffs)
    refine ⟨st2, .logLine "Rebuild triggered - files updated" :: reffs ++ t,
      ?_, ?_⟩
    · unfold handleTimer
      rw [if_pos hrb, if_neg (by simp [hng]), hra]
      simp only []
      exact heq
    · exact hdbg

/-- Witness for C1: the demo environment's builder fails while a
process with PID 41 is running; the tick keeps that handle. -/
theorem restartApp_build_failure_keeps_process_witness :
    demoEnv.buildResult = .error "compile failed" ∧
    (restartApp demoEnv demoSt.debugBinaryProcess).1 =
      .ok none "" none ∧
    (∃ st2 effs,
      handleTimer demoCfg demoEnv { demoSt with rebuild := true } =
        (.next st2, effs) ∧
      st2.debugBinaryProcess =
        ({ demoSt with rebuild := true } : LoopState).debugBinaryProcess) :=
  ⟨rfl,
   (restartApp_build_failure_keeps_process demoCfg demoEnv
      { demoSt with rebuild := true } "compile failed" rfl rfl rfl).1
     demoSt.debugBinaryProcess,
   (restartApp_build_failure_keeps_process demoCfg demoEnv
      { demoSt with rebuild := true } "compile failed" rfl rfl rfl).2.2⟩

/-- C2: for every invocation of `killProcessAndCleanupBinary` with a
running process and a non-empty binary path, the binary file is deleted
only after `Kill` has returned successfully; if `Kill` returns an
error, the function returns that error and does not delete the
binary. -/
theorem killProcessAndCleanupBinary_kill_before_delete
    (p : Process) (binary : String) (killRes : Except String Unit)
    (removeRes : RemoveResult) (hrun : p.running = true) (hb : binary ≠ "") :
    (∀ e, killRes = .error e →
      killProcessAndCleanupBinary (some p) binary killRes removeRes =
        (some e, [.killProcess p.pid])) ∧
    (Effect.deleteBinary binary ∈
        (killProcessAndCleanupBinary (some p) binary killRes removeRes).2 →
      killRes = .ok () ∧
      (killProcessAndCleanupBinary (some p) binary killRes removeRes).2 =
        [.killProcess p.pid, .deleteBinary binary]) := by
  constructor
  · intro e he
    subst he
    simp [killProcessAndCleanupBinary, hrun]
  · intro hmem
    cases killRes with
    | error e => simp [killProcessAndCleanupBinary, hrun] at hmem
    | ok u =>
      cases u
      refine ⟨rfl, ?_⟩
      cases removeRes <;>
        simp [killProcessAndCleanupBinary, kcRemovePhase, hrun, hb]

/-- Witness for C2 at a concrete running process and binary path. -/
theorem killProcessAndCleanupBinary_kill_before_delete_witness :
    (Process.mk 5 "/tmp/b" true).running = true ∧ ("/tmp/b" : String) ≠ "" ∧
    (killProcessAndCleanupBinary (some (Process.mk 5 "/tmp/b" true)) "/tmp/b"
        (Except.ok ()) RemoveResult.removed).2 =
      [Effect.killProcess 5, Effect.deleteBinary "/tmp/b"] :=
  ⟨rfl, by decide,
    ((killProcessAndCleanupBinary_kill_before_delete (Process.mk 5 "/tmp/b" true)
        "/tmp/b" (Except.ok ()) RemoveResult.removed rfl (by decide)).2
      (by decide)).2⟩

/-- C3: a burst of N eligible write events arriving before the
debounce timer fires sets the pending rebuild flag with each event and
resets the timer with each event, and the timer tick then makes exactly
one rebuild attempt and clears the flag. -/
theorem write_events_coalesce (cfg : Config) (env : Env) (st : LoopState)
    (names : List String) (hng : cfg.noGoRebuild = false)
    (hq : st.quit = false) (hne : names ≠ [])
    (hall : ∀ n ∈ names,
      env.dirExists n = false ∧ isEligibleFile cfg.extensions n = true) :
    runLoop cfg env st (names.map eligibleWriteEvent) =
      (.next { st with rebuild := true },
       List.replicate names.length .timerReset) ∧
    List.countP isRebuildAttempt
      (runLoop cfg env st (names.map eligibleWriteEvent ++ [.timer])).2 = 1 ∧
    (∀ st2,
      (runLoop cfg env st (names.map eligibleWriteEvent ++ [.timer])).1 =
        .next st2 → st2.rebuild = false) := by
  have hie : names.isEmpty = false := by
    cases names with
    | nil => exact absurd rfl hne
    | cons a l => rfl
  have h1 := runLoop_writes cfg env names st hq hall
  have hif : (if names.isEmpty = true then st else { st with rebuild := true }) =
      { st with rebuild := true } := by
    rw [hie]
    simp
  rw [hif] at h1
  have happ := runLoop_append cfg env (names.map eligibleWriteEvent) [.timer] st
  rw [h1] at happ
  simp only [] at happ
  have hcnt := handleTimer_count cfg env { st with rebuild := true } rfl hng
  rcases hht : handleTimer cfg env { st with rebuild := true } with ⟨hsr, heffs⟩
  rw [hht] at hcnt
  have hstep : stepLoop cfg env { st with rebuild := true } .timer =
      (hsr, heffs) := hht
  cases hsr with
  | next s2 =>
    have hrun : runLoop cfg env { st with rebuild := true } [.timer] =
        (.next s2, heffs) := by
      simp only [runLoop]
      rw [if_neg (show ¬({ st with rebuild := true } : LoopState).quit = true by
            simp [hq]), hstep]
      simp [runLoop]
    rw [hrun] at happ
    refine ⟨h1, ?_, ?_⟩
    · rw [happ]
      simp only [List.countP_append]
      rw [countP_timerReset_replicate]
      simpa using hcnt.1
    · intro st2 hst2
      rw [happ] at hst2
      exact hcnt.2 st2 hst2
  | fatalStop m =>
    have hrun : runLoop cfg env { st with rebuild := true } [.timer] =
        (.fatalStop m, heffs) := by
      simp only [runLoop]
      rw [if_neg (show ¬({ st with rebuild := true } : LoopState).quit = true by
            simp [hq]), hstep]
    rw [hrun] at happ
    refine ⟨h1, ?_, ?_⟩
    · rw [happ]
      simp only [List.countP_append]
      rw [countP_timerReset_replicate]
      simpa using hcnt.1
    · intro st2 hst2
      rw [happ] at hst2
      exact absurd hst2 (by simp)

/-- Witness for C3: two eligible writes then the timer tick produce one
rebuild attempt. -/
theorem write_events_coalesce_witness :
    demoCfg.noGoRebuild = false ∧ demoSt.quit = false ∧
    List.countP isRebuildAttempt
      (runLoop demoCfg demoEnv demoSt
        (["/x/a.go", "/x/b.go"].map eligibleWriteEvent ++ [.timer])).2 = 1 :=
  ⟨rfl, rfl,
    (write_events_coalesce demoCfg demoEnv demoSt ["/x/a.go", "/x/b.go"]
      rfl rfl (by decide) (by decide)).2.1⟩

/-- C4: within one debounce tick, the rebuild attempt comes before the
reload HTTP call, and a pending reload is still honored (with no
builder invocation at all) when the rebuild is skipped because of the
`-nogorebuild` override. -/
theorem rebuild_before_reload_in_tick (cfg : Config) (env : Env)
    (st : LoopState) (hrl : st.reload = true) :
    (st.rebuild = true → cfg.noGoRebuild = false →
      ∀ op ob reffs,
        restartApp env st.debugBinaryProcess = (.ok op ob none, reffs) →
        ∃ l1 l2 l3, (handleTimer cfg env st).2 =
          l1 ++ .rebuildAttempt :: l2 ++ .httpGetReload :: l3) ∧
    (cfg.noGoRebuild = true →
      Effect.httpGetReload ∈ (handleTimer cfg env st).2 ∧
      List.countP isRebuildAttempt (handleTimer cfg env st).2 = 0) := by
  constructor
  · intro hrb hng op ob reffs hra
    obtain ⟨t, ht, -⟩ := restartApp_effects env st.debugBinaryProcess
    rw [hra] at ht
    simp only [] at ht
    unfold handleTimer
    rw [if_pos hrb, if_neg (by simp [hng]), hra]
    simp only []
    cases op with
    | some p =>
      obtain ⟨st2, lA, lB, heq⟩ := timerAssets_reload cfg env
        { st with rebuild := false, debugBinaryProcess := some p }
        (.logLine "Rebuild triggered - files updated" :: reffs)
        (by simpa using hrl)
      simp only []
      rw [heq]
      refine ⟨[.logLine "Rebuild triggered - files updated"], t ++ lA, lB, ?_⟩
      rw [ht]
      simp [List.append_assoc]
    | none =>
      obtain ⟨st2, lA, lB, heq⟩ := timerAssets_reload cfg env
        { st with rebuild := false }
        (.logLine "Rebuild triggered - files updated" :: reffs)
        (by simpa using hrl)
      simp only []
      rw [heq]
      refine ⟨[.logLine "Rebuild triggered - files updated"], t ++ lA, lB, ?_⟩
      rw [ht]
      simp [List.append_assoc]
  · intro hng
    by_cases hrb : st.rebuild = true
    · unfold handleTimer
      rw [if_pos hrb, if_pos hng]
      constructor
      · obtain ⟨st2, lA, lB, heq⟩ := timerAssets_reload cfg env
          { st with rebuild := false }
          [.logLine "Rebuild triggered - skipping due to flag -nogorebuild"]
          (by simpa using hrl)
        rw [heq]
        simp
      · obtain ⟨st2, t, heq, -, -, -, hc⟩ := timerAssets_spec cfg env
          { st with rebuild := false }
          [.logLine "Rebuild triggered - skipping due to flag -nogorebuild"]
        rw [heq]
        simp [isRebuildAttempt, hc]
    · unfold handleTimer
      rw [if_neg hrb]
      constructor
      · obtain ⟨st2, lA, lB, heq⟩ := timerAssets_reload cfg env st [] hrl
        rw [heq]
        simp
      · obtain ⟨st2, t, heq, -, -, -, hc⟩ := timerAssets_spec cfg env st []
        rw [heq]
        simpa using hc

/-- Witness for C4 at a pending-reload, pending-rebuild demo state with
a failing builder. -/
theorem rebuild_before_reload_in_tick_witness :
    ({ demoSt with rebuild := true, reload := true } : LoopState).reload = true ∧
    (∃ l1 l2 l3,
      (handleTimer demoCfg demoEnv
        { demoSt with rebuild := true, reload := true }).2 =
        l1 ++ .rebuildAttempt :: l2 ++ .httpGetReload :: l3) :=
  ⟨rfl,
    (rebuild_before_reload_in_tick demoCfg demoEnv
        { demoSt with rebuild := true, reload := true } rfl).1
      rfl rfl none ""
      [.rebuildAttempt, .logLine "Build error - compile failed",
       .logLine "Continuing to run current version"]
      (by decide)⟩

/-- From any state other than `running`, no kill signal is ever sent:
nothing sets the atomic back to `running`. -/
theorem killSignals_of_ne_running :
    ∀ (ops : List AtomicOp) (s : WatchState), s ≠ .running →
      killSignals s ops = 0
  | [], _, _ => rfl
  | op :: rest, s, h => by
    cases op with
    | closerCas =>
      simpa [killSignals, casStep, h] using
        killSignals_of_ne_running rest s h
    | waiterCasStop =>
      simpa [killSignals, casStep, h] using
        killSignals_of_ne_running rest s h
    | waiterStore =>
      simpa [killSignals, casStep] using
        killSignals_of_ne_running rest .stopped (by simp)

/-- From any state, at most one kill signal is sent over any
interleaving. -/
theorem killSignals_le_one :
    ∀ (ops : List AtomicOp) (s : WatchState), killSignals s ops ≤ 1
  | [], _ => by simp [killSignals]
  | op :: rest, s => by
    by_cases hs : s = .running
    · subst hs
      cases op with
      | closerCas =>
        simp [killSignals, casStep,
          killSignals_of_ne_running rest WatchState.canceling (by simp)]
      | waiterCasStop =>
        simp [killSignals, casStep,
          killSignals_of_ne_running rest WatchState.stopped (by simp)]
      | waiterStore =>
        simp [killSignals, casStep,
          killSignals_of_ne_running rest WatchState.stopped (by simp)]
    · simp [killSignals_of_ne_running (op :: rest) s hs]

/-- C6: for every pair of concurrent (or repeated) invocations of the
frontend watcher's closer — in fact for every interleaving of any
number of closer calls with the exit-watcher goroutine's operations,
starting from the initial `stateRunning` — the process-group
termination signal is sent at most once in total, enforced by the
compare-and-swap from `running` to `canceling`. -/
theorem frontend_closer_kill_at_most_once :
    ∀ ops : List AtomicOp, killSignals .running ops ≤ 1 :=
  fun ops => killSignals_le_one ops .running

/-- C5: an exit code delivered on the exit-code channel quits the loop
if and only if it is zero, and processing the exit code performs no
effect (in particular no rebuild). -/
theorem exit_code_zero_quits (cfg : Config) (env : Env) (st : LoopState)
    (c : Int) (hq : st.quit = false) :
    ((stepLoop cfg env st (.exit c)).1 = .next { st with quit := true } ↔ c = 0) ∧
    (c ≠ 0 → (stepLoop cfg env st (.exit c)).1 = .next st) ∧
    (stepLoop cfg env st (.exit c)).2 = [] := by
  refine ⟨⟨fun h => ?_, fun h => by simp [stepLoop, h]⟩,
    fun hc => by simp [stepLoop, hc], rfl⟩
  by_cases hc : c = 0
  · exact hc
  · exfalso
    simp only [stepLoop, if_neg hc] at h
    have h2 : st = { st with quit := true } := by
      injection h
    have h3 : st.quit = true := congrArg LoopState.quit h2
    rw [hq] at h3
    exact Bool.false_ne_true h3

/-- Witness for C5: exit code 0 quits the demo loop state. -/
theorem exit_code_zero_quits_witness :
    demoSt.quit = false ∧
    ((stepLoop demoCfg demoEnv demoSt (.exit 0)).1 =
        .next { demoSt with quit := true } ↔ (0 : Int) = 0) :=
  ⟨rfl, (exit_code_zero_quits demoCfg demoEnv demoSt 0 rfl).1⟩

/-- Inserting a key into the set-semantics list makes it a member. -/
theorem mem_insertStr (l : List String) (s : String) : s ∈ insertStr l s := by
  unfold insertStr
  by_cases h : s ∈ l
  · rwa [if_pos h]
  · rw [if_neg h]
    simp

/-- Inserting a key twice is the same as inserting it once. -/
theorem insertStr_idem (l : List String) (s : String) :
    insertStr (insertStr l s) s = insertStr l s := by
  have h := mem_insertStr l s
  unfold insertStr
  by_cases hm : s ∈ l
  · rw [if_pos hm, if_pos hm]
  · rw [if_neg hm, if_pos (by simp)]

/-- C7 counterexample: a write to an existing non-directory file whose
extension is not in the rebuild set and whose path is under no reload
directory is NOT recorded into `changedPaths` when the reload-pending
flag is already set: the state is unchanged. -/
theorem write_event_not_recorded_when_reload_pending :
    demoEnv.dirExists "/other/a.txt" = false ∧
    isEligibleFile demoCfg.extensions "/other/a.txt" = false ∧
    (∀ d ∈ demoCfg.reloadDirs, strStartsWith "/other/a.txt" d = false) ∧
    (stepLoop demoCfg demoEnv { demoSt with reload := true }
      (.fs { name := "/other/a.txt", isWrite := true, isCreate := false })).1 =
      .next { demoSt with reload := true } ∧
    filepathDir "/other/a.txt" ∉
      ({ demoSt with reload := true } : LoopState).changedPaths := by
  decide

/-- C7 (amended): a write event to an existing non-directory file whose
extension is not in the rebuild set and whose path is under no
configured reload directory records the file's parent directory into
`changedPaths`, provided the reload-pending flag is not already set
(otherwise the event only resets the timer). -/
theorem write_event_records_parent_dir (cfg : Config) (env : Env)
    (st : LoopState) (name : String) (hrl : st.reload = false)
    (hd : env.dirExists name = false)
    (he : isEligibleFile cfg.extensions name = false)
    (hnr : ∀ d ∈ cfg.reloadDirs, strStartsWith name d = false) :
    stepLoop cfg env st (.fs { name := name, isWrite := true, isCreate := false }) =
      (.next { st with
                 reload := false,
                 changedPaths := insertStr st.changedPaths (filepathDir name) },
       [.timerReset]) ∧
    filepathDir name ∈ insertStr st.changedPaths (filepathDir name) := by
  have hany : cfg.reloadDirs.any (fun d => strStartsWith name d) = false := by
    rw [List.any_eq_false]
    intro d hdm
    simp [hnr d hdm]
  refine ⟨?_, mem_insertStr _ _⟩
  simp [stepLoop, handleFsEvent, handleCreatePhase, hd, he, hrl, hany]

/-- Witness for C7 (amended): with the reload flag clear, the same
write is recorded. -/
theorem write_event_records_parent_dir_witness :
    demoSt.reload = false ∧
    stepLoop demoCfg demoEnv demoSt
      (.fs { name := "/other/a.txt", isWrite := true, isCreate := false }) =
      (.next { demoSt with
                 reload := false,
                 changedPaths := insertStr demoSt.changedPaths (filepathDir "/other/a.txt") },
       [.timerReset]) :=
  ⟨rfl,
    (write_event_records_parent_dir demoCfg demoEnv demoSt "/other/a.txt"
      rfl rfl (by decide) (by decide)).1⟩

/-- C8: a created directory whose path does not contain `node_modules`
is added to the live watch set (exactly once: the set-semantics insert
keeps one copy and a repeated insert changes nothing), while a created
directory whose path contains `node_modules` is never added and leaves
the state untouched. -/
theorem create_directory_watch (cfg : Config) (env : Env) (st : LoopState)
    (name : String) (hd : env.dirExists name = true) :
    (goContains name "node_modules" = false → env.watcherAddOk name = true →
      stepLoop cfg env st (.fs { name := name, isWrite := false, isCreate := true }) =
        (.next { st with watchList := insertStr st.watchList name },
         [.watcherAdd name,
          .logLine ("Added new directory to watcher: " ++ name)]) ∧
      name ∈ insertStr st.watchList name ∧
      (name ∉ st.watchList →
        List.count name (insertStr st.watchList name) = 1) ∧
      insertStr (insertStr st.watchList name) name = insertStr st.watchList name) ∧
    (goContains name "node_modules" = true →
      stepLoop cfg env st (.fs { name := name, isWrite := false, isCreate := true }) =
        (.next st, [])) := by
  constructor
  · intro hnm hok
    refine ⟨?_, mem_insertStr _ _, ?_, insertStr_idem _ _⟩
    · simp [stepLoop, handleFsEvent, handleCreatePhase, hd, hnm, hok]
    · intro hmem
      unfold insertStr
      rw [if_neg hmem, List.count_append]
      rw [List.count_eq_zero.mpr hmem]
      simp
  · intro hnm
    simp [stepLoop, handleFsEvent, handleCreatePhase, hd, hnm]

/-- Witness for C8 at a concrete created directory, and the
`node_modules` exclusion at a concrete dependency-cache path. -/
theorem create_directory_watch_witness :
    ({ demoEnv with dirExists := fun _ => true } : Env).dirExists "/proj/web/newdir" = true ∧
    stepLoop demoCfg { demoEnv with dirExists := fun _ => true } demoSt
      (.fs { name := "/proj/web/newdir", isWrite := false, isCreate := true }) =
      (.next { demoSt with watchList := insertStr demoSt.watchList "/proj/web/newdir" },
       [.watcherAdd "/proj/web/newdir",
        .logLine ("Added new directory to watcher: " ++ "/proj/web/newdir")]) ∧
    stepLoop demoCfg { demoEnv with dirExists := fun _ => true } demoSt
      (.fs { name := "/proj/node_modules/pkg", isWrite := false, isCreate := true }) =
      (.next demoSt, []) :=
  ⟨rfl,
   ((create_directory_watch demoCfg { demoEnv with dirExists := fun _ => true }
      demoSt "/proj/web/newdir" rfl).1 (by decide) rfl).1,
   (create_directory_watch demoCfg { demoEnv with dirExists := fun _ => true }
      demoSt "/proj/node_modules/pkg" rfl).2 (by decide)⟩

/-- C9: both reload-directory matching and asset-directory matching use
raw string-prefix comparison with no path-separator boundary: any
written file whose path merely begins with a configured reload
directory (including a sibling such as a directory name extended with
extra characters) sets the reload-pending flag, and any batched parent
directory merely beginning with the resolved asset directory does
too. -/
theorem raw_prefix_matching (cfg : Config) (env : Env) (st : LoopState)
    (name d : String) :
    (env.dirExists name = false → isEligibleFile cfg.extensions name = false →
      d ∈ cfg.reloadDirs → strStartsWith name d = true →
      ∃ st2 effs,
        stepLoop cfg env st
          (.fs { name := name, isWrite := true, isCreate := false }) =
          (.next st2, effs) ∧ st2.reload = true) ∧
    (∀ p, cfg.skipAssetsReload = false → st.assetDir ≠ "" →
      p ∈ st.changedPaths → strStartsWith p st.assetDir = true →
      (assetsResolvePhase cfg env st).1.reload = true) := by
  constructor
  · intro hd he hdm hpre
    have hany : cfg.reloadDirs.any (fun d2 => strStartsWith name d2) = true :=
      List.any_eq_true.mpr ⟨d, hdm, hpre⟩
    refine ⟨{ st with reload := true }, [.timerReset], ?_, rfl⟩
    simp [stepLoop, handleFsEvent, handleCreatePhase, hd, he, hany]
  · intro p hskip hne hp hpre
    have hcp : st.changedPaths ≠ [] := by
      intro h
      rw [h] at hp
      exact absurd hp (List.not_mem_nil p)
    have hres : resolveAssetDir env st.assetDir = (st.assetDir, []) := by
      unfold resolveAssetDir
      rw [if_neg hne]
    have hany : st.changedPaths.any
        (fun q => strStartsWith q st.assetDir) = true :=
      List.any_eq_true.mpr ⟨p, hp, hpre⟩
    unfold assetsResolvePhase
    rw [if_pos ⟨hskip, hcp⟩]
    rw [hres]
    simp only []
    rw [if_neg hne]
    simp [hany]

/-- Witness for C9: the sibling path `/project/src-extra/a.js` matches
the reload directory `/project/src`, and the sibling batched directory
`/project/src-extra` matches the asset directory `/project/src`. -/
theorem raw_prefix_matching_witness :
    strStartsWith "/project/src-extra/a.js" "/project/src" = true ∧
    (∃ st2 effs,
      stepLoop { demoCfg with reloadDirs := ["/project/src"] } demoEnv demoSt
        (.fs { name := "/project/src-extra/a.js", isWrite := true, isCreate := false }) =
        (.next st2, effs) ∧ st2.reload = true) ∧
    (assetsResolvePhase { demoCfg with reloadDirs := ["/project/src"] } demoEnv
      { demoSt with
          assetDir := "/project/src",
          changedPaths := ["/project/src-extra"] }).1.reload = true :=
  ⟨by decide,
   (raw_prefix_matching { demoCfg with reloadDirs := ["/project/src"] } demoEnv
      demoSt "/project/src-extra/a.js" "/project/src").1
     rfl (by decide) (by decide) (by decide),
   (raw_prefix_matching { demoCfg with reloadDirs := ["/project/src"] } demoEnv
      { demoSt with
          assetDir := "/project/src",
          changedPaths := ["/project/src-extra"] }
      "" "").2 "/project/src-extra" rfl (by decide) (by decide) (by decide)⟩

/-- C10: a failure to add a newly created directory to the filesystem
watcher terminates the whole tool fatally, while an error delivered on
the watcher's error channel is only logged and the loop continues with
its state unchanged. -/
theorem watcher_add_failure_is_fatal (cfg : Config) (env : Env)
    (st : LoopState) (name msg : String) :
    (env.dirExists name = true → goContains name "node_modules" = false →
      env.watcherAddOk name = false →
      stepLoop cfg env st (.fs { name := name, isWrite := false, isCreate := true }) =
        (.fatalStop "watcher add error", [.watcherAdd name])) ∧
    (stepLoop cfg env st (.watchErr msg) = (.next st, [.logLine msg])) := by
  refine ⟨?_, rfl⟩
  intro hd hnm hok
  simp [stepLoop, handleFsEvent, handleCreatePhase, hd, hnm, hok]

/-- Witness for C10: a concrete directory-create whose watcher `Add`
fails dies fatally; a concrete watcher error is logged and the loop
continues. -/
theorem watcher_add_failure_is_fatal_witness :
    ({ demoEnv with
         dirExists := fun _ => true,
         watcherAddOk := fun _ => false } : Env).dirExists "/proj/newdir" = true ∧
    stepLoop demoCfg
      { demoEnv with dirExists := fun _ => true, watcherAddOk := fun _ => false }
      demoSt (.fs { name := "/proj/newdir", isWrite := false, isCreate := true }) =
      (.fatalStop "watcher add error", [.watcherAdd "/proj/newdir"]) ∧
    stepLoop demoCfg demoEnv demoSt (.watchErr "event overflow") =
      (.next demoSt, [.logLine "event overflow"]) :=
  ⟨rfl,
   (watcher_add_failure_is_fatal demoCfg
      { demoEnv with dirExists := fun _ => true, watcherAddOk := fun _ => false }
      demoSt "/proj/newdir" "event overflow").1 rfl (by decide) rfl,
   (watcher_add_failure_is_fatal demoCfg demoEnv demoSt "/proj/newdir"
      "event overflow").2⟩

end WailsDev
